import Mathlib

/-!
Verification of the breed recommendation engine (`recommendBreeds`).

The engine filters a breed catalog against hard constraints from the farmer's
input, scores the survivors, ranks them, and merges the numeric results with
narrative text obtained from an external text-generation collaborator.  The
definitions below are a shallow embedding of that pipeline: JavaScript numbers
are modelled as exact rationals, `Math.round` as `jsRound`, the stable
`Array.prototype.sort` with comparator `(a, b) => b.overallScore - a.overallScore`
as a stable insertion sort `sortDesc`, and the awaited collaborator response as
an `Option` argument (`none` models an absent or falsy output).
-/

namespace Pashu

/-- Qualitative tier used for strength, maintenance cost and care level. -/
inductive Tier where
  | Low
  | Medium
  | High
deriving DecidableEq

/-- The closed set of farmer goals accepted by the request schema. -/
inductive Goal where
  | milk
  | draught
  | dualPurpose
  | lowMaintenance
deriving DecidableEq

/-- A catalog entry (the fields of `indianBreedData` read by the pipeline). -/
structure Breed where
  breedName : String
  marketPrice : ℚ
  milkYield : ℚ
  strength : Tier
  maintenanceCost : Tier
  careLevel : Tier
  climateSuitability : List String
deriving DecidableEq

/-- The farmer's request (`RecommendBreedsInputSchema`). -/
structure RecommendBreedsInput where
  goal : Goal
  budget : ℚ
  landSize : ℚ
  regionalClimate : String
  language : String
deriving DecidableEq

/-- Per-goal weight vector selected by the `switch` on the goal. -/
structure Weights where
  milk : ℚ
  roi : ℚ
  care : ℚ
  climate : ℚ
  strength : ℚ
deriving DecidableEq

/-- Integer sub-score breakdown of a locally scored breed. -/
structure Scores where
  milkYieldScore : ℤ
  strengthScore : ℤ
  careRequirementScore : ℤ
  roiScore : ℤ
  climateMatchScore : ℤ
deriving DecidableEq

/-- A breed together with its locally computed scores. -/
structure ScoredBreed where
  breed : Breed
  overallScore : ℚ
  scores : Scores
  roi : ℤ
deriving DecidableEq

/-- Sub-score breakdown as it appears in the output schema (plain numbers). -/
structure ScoreBreakdown where
  milkYieldScore : ℚ
  strengthScore : ℚ
  careRequirementScore : ℚ
  roiScore : ℚ
  climateMatchScore : ℚ
deriving DecidableEq

/-- One entry of `RecommendBreedsOutputSchema`; this is both the shape the
collaborator must fill and the shape of the final result entries. -/
structure RecommendedBreed where
  breedName : String
  overallScore : ℚ
  pros : String
  cons : String
  roi : ℚ
  careLevel : String
  scores : ScoreBreakdown
deriving DecidableEq

/-- The output aggregate (`RecommendBreedsOutputSchema`). -/
structure RecommendBreedsOutput where
  recommendedBreeds : List RecommendedBreed
deriving DecidableEq

/-- JavaScript `Math.round`: round half toward positive infinity. -/
def jsRound (x : ℚ) : ℤ := ⌊x + 1/2⌋

/-- The `normalize` helper: linear map of `value` from `[min, max]` into
`[0, 1]`, clamped at both ends, returning `1` on a degenerate range. -/
def normalize (value min max : ℚ) : ℚ :=
  if max = min then 1
  else Max.max 0 (Min.min 1 ((value - min) / (max - min)))

/-- The `getScore` helper: High maps to 10, Medium to 5, anything else to 1. -/
def getScore (value : Tier) : ℚ :=
  if value = Tier.High then 10
  else if value = Tier.Medium then 5
  else 1

/-- The `maintenanceMapping` object: monthly cost by maintenance tier. -/
def maintenanceMapping : Tier → ℚ
  | Tier.Low => 3000
  | Tier.Medium => 5000
  | Tier.High => 8000

/-- Rendering of a tier as the string literal used in the TypeScript source. -/
def tierString : Tier → String
  | Tier.Low => "Low"
  | Tier.Medium => "Medium"
  | Tier.High => "High"

/-- The weight vector chosen by the `switch (input.goal)` statement; the
`low-maintenance` case shares the `default` branch of the source. -/
def weights : Goal → Weights
  | Goal.milk => { milk := 0.5, roi := 0.3, care := 0.1, climate := 0.1, strength := 0 }
  | Goal.draught => { milk := 0.1, roi := 0.2, care := 0.2, climate := 0.1, strength := 0.4 }
  | Goal.dualPurpose => { milk := 0.3, roi := 0.3, care := 0.1, climate := 0.1, strength := 0.2 }
  | Goal.lowMaintenance => { milk := 0.1, roi := 0.3, care := 0.4, climate := 0.1, strength := 0 }

/-- Sum of the five components of a goal's weight vector. -/
def weightSum (g : Goal) : ℚ :=
  (weights g).milk + (weights g).roi + (weights g).care + (weights g).climate +
    (weights g).strength

/-- The filter callback of step 1: a breed passes the hard constraints when its
price is within budget, its climate suitability contains the regional climate,
and, for the low-maintenance goal, both maintenance cost and care level are Low. -/
def breedPasses (input : RecommendBreedsInput) (breed : Breed) : Bool :=
  if breed.marketPrice > input.budget then false
  else if input.regionalClimate ∉ breed.climateSuitability then false
  else if input.goal = Goal.lowMaintenance ∧
      (breed.maintenanceCost ≠ Tier.Low ∨ breed.careLevel ≠ Tier.Low) then false
  else true

/-- Step 1 of the pipeline: `catalog.filter(breed => ...)`. -/
def filteredBreeds (catalog : List Breed) (input : RecommendBreedsInput) : List Breed :=
  catalog.filter (breedPasses input)

/-- Step 2 and 3 of the pipeline: sub-scores, ROI estimate and the goal-weighted
overall score for one filtered breed. -/
def scoreBreed (goal : Goal) (breed : Breed) : ScoredBreed :=
  let milkYieldScore := normalize breed.milkYield 1 15 * 10
  let strengthScore := getScore breed.strength
  let careRequirementScore := 10 - getScore breed.careLevel
  let climateMatchScore : ℚ := 10
  let monthlyIncome := breed.milkYield * 30 * 55
  let monthlyCost := maintenanceMapping breed.maintenanceCost
  let estimatedProfit := monthlyIncome - monthlyCost
  let roiScore := normalize estimatedProfit (-5000) 20000 * 10
  let initialInvestment := breed.marketPrice
  let netAnnualProfit := estimatedProfit * 12
  let roi := if initialInvestment > 0 then netAnnualProfit / initialInvestment * 100 else 0
  let w := weights goal
  let overallScore :=
    milkYieldScore * w.milk +
    strengthScore * w.strength +
    careRequirementScore * w.care +
    roiScore * w.roi +
    climateMatchScore * w.climate
  { breed := breed
    overallScore := (jsRound (Min.min 10 (Max.max 0 overallScore) * 10) : ℚ) / 10
    scores :=
      { milkYieldScore := jsRound milkYieldScore
        strengthScore := jsRound strengthScore
        careRequirementScore := jsRound careRequirementScore
        roiScore := jsRound roiScore
        climateMatchScore := jsRound climateMatchScore }
    roi := jsRound roi }

/-- Insertion step of the stable descending sort: `x` is placed before the
first element whose overall score is at most `x`'s, so earlier input elements
win ties, exactly as the stable JavaScript sort does. -/
def insertDesc (x : ScoredBreed) : List ScoredBreed → List ScoredBreed
  | [] => [x]
  | y :: ys =>
    if y.overallScore ≤ x.overallScore then x :: y :: ys
    else y :: insertDesc x ys

/-- Stable sort of scored breeds, descending by overall score; this models
`scoredBreeds.sort((a, b) => b.overallScore - a.overallScore)`. -/
def sortDesc : List ScoredBreed → List ScoredBreed
  | [] => []
  | x :: xs => insertDesc x (sortDesc xs)

/-- Ranked top-3 scored breeds for a catalog and an input. -/
def topBreedsOf (catalog : List Breed) (input : RecommendBreedsInput) : List ScoredBreed :=
  (sortDesc ((filteredBreeds catalog input).map (scoreBreed input.goal))).take 3

/-- Integer sub-scores viewed as plain numbers of the output schema. -/
def scoresToRat (s : Scores) : ScoreBreakdown :=
  { milkYieldScore := (s.milkYieldScore : ℚ)
    strengthScore := (s.strengthScore : ℚ)
    careRequirementScore := (s.careRequirementScore : ℚ)
    roiScore := (s.roiScore : ℚ)
    climateMatchScore := (s.climateMatchScore : ℚ) }

/-- The object literal built for index `index` of the collaborator's response:
spread of the collaborator entry with every numeric field overwritten by the
locally computed values. -/
def mergeRec (rec : RecommendedBreed) (originalBreedData : ScoredBreed) : RecommendedBreed :=
  { rec with
    overallScore := originalBreedData.overallScore
    roi := (originalBreedData.roi : ℚ)
    careLevel := tierString originalBreedData.breed.careLevel
    scores := scoresToRat originalBreedData.scores }

/-- Body of the `map` in step 5: pair the collaborator entry at `index` with
the locally ranked breed at the same index, returning `none` (the source's
`null`, later filtered out) when the ranked list has no such index. -/
def combineEntry (topBreeds : List ScoredBreed) (index : ℕ) (rec : RecommendedBreed) :
    Option RecommendedBreed :=
  match topBreeds[index]? with
  | none => none
  | some originalBreedData => some (mergeRec rec originalBreedData)

/-- The whole pipeline.  `promptOutput` is the collaborator's awaited response;
`none` models a missing or falsy output, which the source turns into a thrown
error, modelled as `Except.error`. -/
def recommendBreeds (catalog : List Breed) (input : RecommendBreedsInput)
    (promptOutput : Option RecommendBreedsOutput) : Except String RecommendBreedsOutput :=
  let filtered := filteredBreeds catalog input
  if filtered.length = 0 then
    Except.ok { recommendedBreeds := [] }
  else
    let scoredBreeds := filtered.map (scoreBreed input.goal)
    let topBreeds := (sortDesc scoredBreeds).take 3
    match promptOutput with
    | none => Except.error "Failed to get recommendations from AI model."
    | some output =>
      Except.ok
        { recommendedBreeds :=
            output.recommendedBreeds.enum.filterMap fun p => combineEntry topBreeds p.1 p.2 }

/-- Concrete catalog entry used to evaluate the theorems on closed inputs. -/
def sampleBreed : Breed :=
  { breedName := "Gir"
    marketPrice := 50000
    milkYield := 15
    strength := Tier.High
    maintenanceCost := Tier.Low
    careLevel := Tier.Low
    climateSuitability := ["Hot and Dry"] }

/-- Concrete low-yield, cheap catalog entry used for the ROI counterexample. -/
def cheapBreed : Breed :=
  { breedName := "Scrub"
    marketPrice := 7000
    milkYield := 1
    strength := Tier.Low
    maintenanceCost := Tier.Low
    careLevel := Tier.Low
    climateSuitability := ["Hot and Dry"] }

/-- Concrete farmer input used to evaluate the theorems on closed inputs. -/
def sampleInput : RecommendBreedsInput :=
  { goal := Goal.milk
    budget := 50000
    landSize := 1
    regionalClimate := "Hot and Dry"
    language := "en" }

/-- A collaborator entry whose numeric-looking fields are all wrong on purpose;
the merge must overwrite every one of them. -/
def sampleRec : RecommendedBreed :=
  { breedName := "Gir"
    overallScore := 0
    pros := "good milk"
    cons := "needs space"
    roi := 0
    careLevel := "High"
    scores :=
      { milkYieldScore := 0
        strengthScore := 0
        careRequirementScore := 0
        roiScore := 0
        climateMatchScore := 0 } }

/-- The locally computed scores of `sampleBreed` under the milk goal. -/
def sampleScored : ScoredBreed :=
  { breed := sampleBreed
    overallScore := 99/10
    scores :=
      { milkYieldScore := 10
        strengthScore := 10
        careRequirementScore := 9
        roiScore := 10
        climateMatchScore := 10 }
    roi := 522 }

/-- The merged result entry expected for `sampleBreed` and `sampleRec`. -/
def sampleEntry : RecommendedBreed :=
  { breedName := "Gir"
    overallScore := 99/10
    pros := "good milk"
    cons := "needs space"
    roi := 522
    careLevel := "Low"
    scores :=
      { milkYieldScore := 10
        strengthScore := 10
        careRequirementScore := 9
        roiScore := 10
        climateMatchScore := 10 } }


/-- Farmer input identical to `sampleInput` except for the land size. -/
def sampleInputLand2 : RecommendBreedsInput :=
  { goal := Goal.milk
    budget := 50000
    landSize := 2
    regionalClimate := "Hot and Dry"
    language := "en" }

/-- Farmer input whose budget excludes every sample catalog entry. -/
def poorInput : RecommendBreedsInput :=
  { goal := Goal.milk
    budget := 10000
    landSize := 1
    regionalClimate := "Hot and Dry"
    language := "en" }

/-! ## Helper lemmas -/

theorem jsRound_lb (n : ℤ) (x : ℚ) (h : (n : ℚ) ≤ x) : n ≤ jsRound x := by
  unfold jsRound
  exact Int.le_floor.2 (by linarith)

theorem jsRound_ub (n : ℤ) (x : ℚ) (h : x ≤ (n : ℚ)) : jsRound x ≤ n := by
  unfold jsRound
  have hx : x + 1/2 < ((n + 1 : ℤ) : ℚ) := by push_cast; linarith
  exact Int.lt_add_one_iff.1 (Int.floor_lt.2 hx)

theorem normalize_nonneg (v lo hi : ℚ) : 0 ≤ normalize v lo hi := by
  unfold normalize
  split
  · norm_num
  · exact le_max_left 0 _

theorem normalize_le_one (v lo hi : ℚ) : normalize v lo hi ≤ 1 := by
  unfold normalize
  split
  · norm_num
  · exact max_le (by norm_num) (min_le_left _ _)

theorem getScore_mem (t : Tier) : getScore t = 10 ∨ getScore t = 5 ∨ getScore t = 1 := by
  cases t <;> simp [getScore]

theorem subscore_bounds (x : ℚ) (h1 : 0 ≤ x) (h2 : x ≤ 10) :
    0 ≤ jsRound x ∧ jsRound x ≤ 10 :=
  ⟨jsRound_lb 0 x (by push_cast; linarith), jsRound_ub 10 x (by push_cast; linarith)⟩

theorem clamp_round_bounds (x : ℚ) :
    0 ≤ (jsRound (Min.min 10 (Max.max 0 x) * 10) : ℚ) / 10 ∧
      (jsRound (Min.min 10 (Max.max 0 x) * 10) : ℚ) / 10 ≤ 10 := by
  have h0 : (0 : ℚ) ≤ Min.min 10 (Max.max 0 x) := le_min (by norm_num) (le_max_left _ _)
  have h1 : Min.min 10 (Max.max 0 x) ≤ 10 := min_le_left _ _
  have hlb : (0 : ℤ) ≤ jsRound (Min.min 10 (Max.max 0 x) * 10) :=
    jsRound_lb 0 _ (by push_cast; nlinarith)
  have hub : jsRound (Min.min 10 (Max.max 0 x) * 10) ≤ 100 :=
    jsRound_ub 100 _ (by push_cast; nlinarith)
  have hlb' : (0 : ℚ) ≤ (jsRound (Min.min 10 (Max.max 0 x) * 10) : ℚ) := by exact_mod_cast hlb
  have hub' : (jsRound (Min.min 10 (Max.max 0 x) * 10) : ℚ) ≤ 100 := by exact_mod_cast hub
  constructor
  · positivity
  · rw [div_le_iff₀ (by norm_num)]
    linarith

theorem breedPasses_iff (input : RecommendBreedsInput) (b : Breed) :
    breedPasses input b = true ↔
      b.marketPrice ≤ input.budget ∧ input.regionalClimate ∈ b.climateSuitability ∧
        (input.goal ≠ Goal.lowMaintenance ∨
          (b.maintenanceCost = Tier.Low ∧ b.careLevel = Tier.Low)) := by
  unfold breedPasses
  by_cases h1 : b.marketPrice > input.budget
  · rw [if_pos h1]
    simp only [Bool.false_eq_true, false_iff]
    exact fun h => absurd h.1 (not_le.2 h1)
  · rw [if_neg h1]
    by_cases h2 : input.regionalClimate ∉ b.climateSuitability
    · rw [if_pos h2]
      simp only [Bool.false_eq_true, false_iff]
      exact fun h => h2 h.2.1
    · rw [if_neg h2]
      by_cases h3 : input.goal = Goal.lowMaintenance ∧
          (b.maintenanceCost ≠ Tier.Low ∨ b.careLevel ≠ Tier.Low)
      · rw [if_pos h3]
        simp only [Bool.false_eq_true, false_iff]
        intro h
        rcases h.2.2 with hg | hlc
        · exact hg h3.1
        · rcases h3.2 with hm | hc
          · exact hm hlc.1
          · exact hc hlc.2
      · rw [if_neg h3]
        refine ⟨fun _ => ⟨le_of_not_lt h1, not_not.1 h2, ?_⟩, fun _ => rfl⟩
        by_cases hg : input.goal = Goal.lowMaintenance
        · right
          have hb := not_and.1 h3 hg
          push_neg at hb
          exact hb
        · exact Or.inl hg

/-! ## Claim theorems -/

/-- C1: a breed of the catalog appears in the filtered set iff its market price
is within budget, its climate suitability contains the regional climate, and,
when the goal is low-maintenance, both maintenance cost and care level are Low;
the filtered set is a sublist of the catalog, so catalog order is preserved. -/
theorem filter_spec (catalog : List Breed) (input : RecommendBreedsInput) :
    (∀ b ∈ catalog,
      b ∈ filteredBreeds catalog input ↔
        b.marketPrice ≤ input.budget ∧ input.regionalClimate ∈ b.climateSuitability ∧
          (input.goal ≠ Goal.lowMaintenance ∨
            (b.maintenanceCost = Tier.Low ∧ b.careLevel = Tier.Low))) ∧
    (filteredBreeds catalog input).Sublist catalog := by
  constructor
  · intro b hb
    rw [filteredBreeds, List.mem_filter, ← breedPasses_iff input b]
    exact ⟨fun h => h.2, fun h => ⟨hb, h⟩⟩
  · exact List.filter_sublist _

/-- Closed-input witness for `filter_spec`. -/
theorem filter_spec_witness :
    sampleBreed ∈ filteredBreeds [sampleBreed] sampleInput ∧
    (filteredBreeds [sampleBreed] sampleInput).Sublist [sampleBreed] := by
  have h := filter_spec [sampleBreed] sampleInput
  refine ⟨(h.1 sampleBreed (by simp)).2 ⟨?_, ?_, Or.inl ?_⟩, h.2⟩
  · norm_num [sampleBreed, sampleInput]
  · simp [sampleBreed, sampleInput]
  · simp only [sampleInput]
    decide

/-- C2 counterexample: the low-maintenance (default) weight vector of the
scorer sums to 0.9, not to 1.0. -/
theorem weightSum_counterexample :
    weightSum Goal.lowMaintenance = 9/10 ∧ (9/10 : ℚ) ≠ 1 := by
  constructor <;> norm_num [weightSum, weights]

/-- C2 (amended): the weight vectors of the milk, draught and dual-purpose
goals sum to exactly 1.0, while the low-maintenance (default) vector sums
to 0.9. -/
theorem weightSum_amended (g : Goal) :
    weightSum g = if g = Goal.lowMaintenance then (9/10 : ℚ) else 1 := by
  cases g <;>
    first
      | (rw [if_neg (by decide)]; norm_num [weightSum, weights])
      | (rw [if_pos rfl]; norm_num [weightSum, weights])

/-- C3: the overall score of every scored breed lies in [0, 10] (it is clamped
to [0, 10] before rounding to one decimal), and each of the five integer
sub-scores lies in [0, 10]. -/
theorem score_bounds (g : Goal) (b : Breed) :
    (0 ≤ (scoreBreed g b).overallScore ∧ (scoreBreed g b).overallScore ≤ 10) ∧
    (0 ≤ (scoreBreed g b).scores.milkYieldScore ∧ (scoreBreed g b).scores.milkYieldScore ≤ 10) ∧
    (0 ≤ (scoreBreed g b).scores.strengthScore ∧ (scoreBreed g b).scores.strengthScore ≤ 10) ∧
    (0 ≤ (scoreBreed g b).scores.careRequirementScore ∧
      (scoreBreed g b).scores.careRequirementScore ≤ 10) ∧
    (0 ≤ (scoreBreed g b).scores.roiScore ∧ (scoreBreed g b).scores.roiScore ≤ 10) ∧
    (0 ≤ (scoreBreed g b).scores.climateMatchScore ∧
      (scoreBreed g b).scores.climateMatchScore ≤ 10) := by
  unfold scoreBreed
  dsimp only
  have hmilk0 := normalize_nonneg b.milkYield 1 15
  have hmilk1 := normalize_le_one b.milkYield 1 15
  have hroi0 := normalize_nonneg (b.milkYield * 30 * 55 - maintenanceMapping b.maintenanceCost)
    (-5000) 20000
  have hroi1 := normalize_le_one (b.milkYield * 30 * 55 - maintenanceMapping b.maintenanceCost)
    (-5000) 20000
  refine ⟨clamp_round_bounds _, subscore_bounds _ (by positivity) (by nlinarith), ?_, ?_,
    subscore_bounds _ (by positivity) (by nlinarith), subscore_bounds 10 (by norm_num) (by norm_num)⟩
  · rcases getScore_mem b.strength with h | h | h <;> rw [h] <;>
      exact subscore_bounds _ (by norm_num) (by norm_num)
  · rcases getScore_mem b.careLevel with h | h | h <;> rw [h] <;>
      exact subscore_bounds _ (by norm_num) (by norm_num)

/-- C8: `normalize` returns 1 on a degenerate range, always lands in [0, 1],
and on a proper range it is 0 at or below the minimum, 1 at or above the
maximum, and monotone in the value. -/
theorem normalize_spec :
    (∀ v a : ℚ, normalize v a a = 1) ∧
    (∀ v lo hi : ℚ, 0 ≤ normalize v lo hi ∧ normalize v lo hi ≤ 1) ∧
    (∀ v w lo hi : ℚ, lo < hi →
      (v ≤ lo → normalize v lo hi = 0) ∧
      (hi ≤ v → normalize v lo hi = 1) ∧
      (v ≤ w → normalize v lo hi ≤ normalize w lo hi)) := by
  refine ⟨fun v a => by simp [normalize], fun v lo hi =>
    ⟨normalize_nonneg v lo hi, normalize_le_one v lo hi⟩, fun v w lo hi hlt => ⟨?_, ?_, ?_⟩⟩
  · intro hv
    unfold normalize
    rw [if_neg (by linarith)]
    have ht : (v - lo) / (hi - lo) ≤ 0 := div_nonpos_iff.2 (Or.inr ⟨by linarith, by linarith⟩)
    rw [min_eq_right (by linarith), max_eq_left ht]
  · intro hv
    unfold normalize
    rw [if_neg (by linarith)]
    have ht : (1 : ℚ) ≤ (v - lo) / (hi - lo) := (one_le_div (by linarith)).2 (by linarith)
    rw [min_eq_left ht, max_eq_right (by norm_num)]
  · intro hvw
    unfold normalize
    simp only [if_neg (show ¬hi = lo by linarith)]
    have hpos : (0 : ℚ) < hi - lo := by linarith
    have hd : (v - lo) / (hi - lo) ≤ (w - lo) / (hi - lo) := by
      rw [div_le_div_iff₀ hpos hpos]
      nlinarith
    exact max_le_max le_rfl (min_le_min le_rfl hd)

/-- Closed-input witness for `normalize_spec`. -/
theorem normalize_spec_witness :
    normalize 7 4 4 = 1 ∧ normalize 0 1 3 = 0 ∧ normalize 5 1 3 = 1 ∧
    normalize 2 1 3 ≤ normalize (5/2) 1 3 :=
  ⟨normalize_spec.1 7 4,
   (normalize_spec.2.2 0 0 1 3 (by norm_num)).1 (by norm_num),
   (normalize_spec.2.2 5 5 1 3 (by norm_num)).2.1 (by norm_num),
   (normalize_spec.2.2 2 (5/2) 1 3 (by norm_num)).2.2 (by norm_num)⟩

/-- C9 counterexample: for a cheap low-yield breed that passes the filter, the
roi stored for the user is the rounded value -231, which differs from the exact
annualized formula value -1620/7. -/
theorem roi_report_counterexample :
    cheapBreed ∈ filteredBreeds [cheapBreed] sampleInput ∧
    (scoreBreed sampleInput.goal cheapBreed).roi = -231 ∧
    ((scoreBreed sampleInput.goal cheapBreed).roi : ℚ) ≠
      (cheapBreed.milkYield * 30 * 55 - maintenanceMapping cheapBreed.maintenanceCost) * 12 /
        cheapBreed.marketPrice * 100 := by
  have hroi : (scoreBreed sampleInput.goal cheapBreed).roi = -231 := by
    norm_num [scoreBreed, sampleInput, cheapBreed, normalize, getScore, maintenanceMapping,
      jsRound]
  refine ⟨?_, hroi, ?_⟩
  · norm_num [filteredBreeds, breedPasses, cheapBreed, sampleInput]
  · rw [hroi]
    norm_num [cheapBreed, maintenanceMapping]

/-- C9 (amended): the roi reported to the user is the formula value rounded to
the nearest integer: roi = round((estimatedProfit x 12 / marketPrice) x 100)
when marketPrice > 0 and round(0) = 0 otherwise, with estimatedProfit built
from the fixed milk price 55 and the maintenance-tier cost lookup; it is
distinct from the normalized roiScore used in ranking, which is
round(normalize(estimatedProfit, -5000, 20000) x 10). -/
theorem roi_formula (g : Goal) (b : Breed) :
    (scoreBreed g b).roi =
      jsRound (if b.marketPrice > 0 then
          (b.milkYield * 30 * 55 - maintenanceMapping b.maintenanceCost) * 12 /
            b.marketPrice * 100
        else 0) ∧
    (scoreBreed g b).scores.roiScore =
      jsRound (normalize (b.milkYield * 30 * 55 - maintenanceMapping b.maintenanceCost)
        (-5000) 20000 * 10) :=
  ⟨rfl, rfl⟩

/-! ## Ranker lemmas -/

theorem mem_insertDesc (x a : ScoredBreed) (l : List ScoredBreed) :
    a ∈ insertDesc x l ↔ a = x ∨ a ∈ l := by
  induction l with
  | nil => simp [insertDesc]
  | cons y ys ih =>
    unfold insertDesc
    split
    · simp [List.mem_cons]
    · simp [List.mem_cons, ih]
      tauto

theorem length_insertDesc (x : ScoredBreed) (l : List ScoredBreed) :
    (insertDesc x l).length = l.length + 1 := by
  induction l with
  | nil => rfl
  | cons y ys ih =>
    unfold insertDesc
    split <;> simp [ih]

theorem sortDesc_length (l : List ScoredBreed) : (sortDesc l).length = l.length := by
  induction l with
  | nil => rfl
  | cons x xs ih => simp [sortDesc, length_insertDesc, ih]

theorem pairwise_insertDesc (x : ScoredBreed) (l : List ScoredBreed)
    (h : l.Pairwise fun a b => b.overallScore ≤ a.overallScore) :
    (insertDesc x l).Pairwise fun a b => b.overallScore ≤ a.overallScore := by
  induction l with
  | nil => simp [insertDesc]
  | cons y ys ih =>
    rw [List.pairwise_cons] at h
    obtain ⟨hy, hys⟩ := h
    unfold insertDesc
    split
    · rename_i hxy
      rw [List.pairwise_cons]
      refine ⟨fun z hz => ?_, List.pairwise_cons.2 ⟨hy, hys⟩⟩
      rcases List.mem_cons.1 hz with rfl | hz'
      · exact hxy
      · exact le_trans (hy z hz') hxy
    · rename_i hxy
      push_neg at hxy
      rw [List.pairwise_cons]
      refine ⟨fun z hz => ?_, ih hys⟩
      rcases (mem_insertDesc x z ys).1 hz with rfl | hz'
      · exact le_of_lt hxy
      · exact hy z hz'

theorem sortDesc_pairwise (l : List ScoredBreed) :
    (sortDesc l).Pairwise fun a b => b.overallScore ≤ a.overallScore := by
  induction l with
  | nil => simp [sortDesc]
  | cons x xs ih => exact pairwise_insertDesc x _ ih

theorem filter_insertDesc (x : ScoredBreed) (l : List ScoredBreed) (v : ℚ) :
    (insertDesc x l).filter (fun s => decide (s.overallScore = v)) =
      if x.overallScore = v then
        x :: l.filter (fun s => decide (s.overallScore = v))
      else l.filter (fun s => decide (s.overallScore = v)) := by
  induction l with
  | nil =>
    by_cases hv : x.overallScore = v <;> simp [insertDesc, List.filter, hv]
  | cons y ys ih =>
    unfold insertDesc
    split
    · by_cases hv : x.overallScore = v <;> simp [List.filter_cons, hv]
    · rename_i hxy
      push_neg at hxy
      by_cases hv : x.overallScore = v
      · have hyv : ¬y.overallScore = v := by
          intro hy
          rw [hy, ← hv] at hxy
          exact absurd hxy (lt_irrefl _)
        simp [List.filter_cons, hv, hyv, ih]
      · by_cases hyv : y.overallScore = v <;> simp [List.filter_cons, hv, hyv, ih]

theorem sortDesc_stable (l : List ScoredBreed) (v : ℚ) :
    (sortDesc l).filter (fun s => decide (s.overallScore = v)) =
      l.filter (fun s => decide (s.overallScore = v)) := by
  induction l with
  | nil => rfl
  | cons x xs ih =>
    show (insertDesc x (sortDesc xs)).filter _ = _
    rw [filter_insertDesc]
    by_cases hv : x.overallScore = v <;> simp [List.filter_cons, hv, ih]

/-- C4: the ranker output (stable descending sort, then take 3) is sorted
non-increasing by overall score, has length at most 3 and at most the length of
its input, the sort is stable (for every score value the subsequence of
elements carrying it is exactly the input subsequence, so ties keep catalog
iteration order), and the pipeline top list is no longer than the filtered set. -/
theorem ranker_spec (l : List ScoredBreed) (catalog : List Breed)
    (input : RecommendBreedsInput) :
    (((sortDesc l).take 3).Pairwise fun a b => b.overallScore ≤ a.overallScore) ∧
    ((sortDesc l).take 3).length ≤ 3 ∧
    ((sortDesc l).take 3).length ≤ l.length ∧
    (∀ v : ℚ, (sortDesc l).filter (fun s => decide (s.overallScore = v)) =
      l.filter (fun s => decide (s.overallScore = v))) ∧
    (topBreedsOf catalog input).length ≤ 3 ∧
    (topBreedsOf catalog input).length ≤ (filteredBreeds catalog input).length := by
  refine ⟨(sortDesc_pairwise l).sublist (List.take_sublist 3 _), ?_, ?_,
    sortDesc_stable l, ?_, ?_⟩
  · rw [List.length_take]
    exact min_le_left _ _
  · rw [List.length_take, sortDesc_length]
    exact min_le_right _ _
  · rw [topBreedsOf, List.length_take]
    exact min_le_left _ _
  · rw [topBreedsOf, List.length_take, sortDesc_length, List.length_map]
    exact min_le_right _ _

/-! ## Narrative merge lemmas -/

theorem zipWith_getElem?_eq {α β γ : Type} (f : α → β → γ) :
    ∀ (as : List α) (bs : List β) (i : ℕ) (c : γ),
      (List.zipWith f as bs)[i]? = some c →
      ∃ a b, as[i]? = some a ∧ bs[i]? = some b ∧ c = f a b := by
  intro as
  induction as with
  | nil => intro bs i c h; simp at h
  | cons a as ih =>
    intro bs i c h
    cases bs with
    | nil => simp at h
    | cons b bs =>
      cases i with
      | zero =>
        rw [List.zipWith_cons_cons] at h
        simp at h ⊢
        exact h.symm
      | succ n =>
        rw [List.zipWith_cons_cons] at h
        simp only [List.getElem?_cons_succ] at h ⊢
        exact ih bs n c h

theorem enumFrom_filterMap_combine (top : List ScoredBreed) :
    ∀ (recs : List RecommendedBreed) (n : ℕ),
      ((List.enumFrom n recs).filterMap fun p => combineEntry top p.1 p.2) =
        List.zipWith mergeRec recs (top.drop n) := by
  intro recs
  induction recs with
  | nil => intro n; simp
  | cons rec recs ih =>
    intro n
    have hstep : List.enumFrom n (rec :: recs) = (n, rec) :: List.enumFrom (n + 1) recs := rfl
    rw [hstep, List.filterMap_cons]
    cases h : top[n]? with
    | none =>
      have hlen : top.length ≤ n := by
        simpa [List.getElem?_eq_none_iff] using h
      have hcomb : combineEntry top n rec = none := by
        simp [combineEntry, h]
      simp only [hcomb]
      rw [ih (n + 1), List.drop_eq_nil_of_le hlen,
        List.drop_eq_nil_of_le (le_trans hlen (Nat.le_succ n)), List.zipWith_nil_right,
        List.zipWith_nil_right]
    | some orig =>
      obtain ⟨hlt, hget⟩ := List.getElem?_eq_some.1 h
      have hdrop : top.drop n = top[n] :: top.drop (n + 1) := List.drop_eq_getElem_cons hlt
      have hcomb : combineEntry top n rec = some (mergeRec rec orig) := by
        simp [combineEntry, h]
      simp only [hcomb]
      rw [ih (n + 1), hdrop, hget, List.zipWith_cons_cons]

theorem recommendBreeds_ok_eq (catalog : List Breed) (input : RecommendBreedsInput)
    (out : RecommendBreedsOutput) (hne : filteredBreeds catalog input ≠ []) :
    recommendBreeds catalog input (some out) =
      Except.ok
        { recommendedBreeds :=
            List.zipWith mergeRec out.recommendedBreeds (topBreedsOf catalog input) } := by
  unfold recommendBreeds topBreedsOf
  rw [if_neg fun h => hne (List.length_eq_zero.1 h)]
  show Except.ok _ = _
  rw [List.enum, enumFrom_filterMap_combine, List.drop_zero]

/-- C5: every entry of a successful result takes its overall score, roi, care
level and sub-score breakdown from the locally computed scored breed at the
same index of the ranked top list, while its narrative fields (breed name,
pros, cons) come from the collaborator entry at that index. -/
theorem merge_numeric_authority (catalog : List Breed) (input : RecommendBreedsInput)
    (out res : RecommendBreedsOutput)
    (hok : recommendBreeds catalog input (some out) = Except.ok res)
    (i : ℕ) (e : RecommendedBreed)
    (he : res.recommendedBreeds[i]? = some e) :
    ∃ orig rec, (topBreedsOf catalog input)[i]? = some orig ∧
      out.recommendedBreeds[i]? = some rec ∧
      e.overallScore = orig.overallScore ∧ e.roi = (orig.roi : ℚ) ∧
      e.careLevel = tierString orig.breed.careLevel ∧ e.scores = scoresToRat orig.scores ∧
      e.breedName = rec.breedName ∧ e.pros = rec.pros ∧ e.cons = rec.cons := by
  by_cases hemp : filteredBreeds catalog input = []
  · unfold recommendBreeds at hok
    rw [if_pos (by rw [hemp]; rfl)] at hok
    injection hok with hres
    rw [← hres] at he
    simp at he
  · rw [recommendBreeds_ok_eq catalog input out hemp] at hok
    injection hok with hres
    rw [← hres] at he
    obtain ⟨rec, orig, h1, h2, h3⟩ :=
      zipWith_getElem?_eq mergeRec out.recommendedBreeds (topBreedsOf catalog input) i e he
    subst h3
    exact ⟨orig, rec, h2, h1, rfl, rfl, rfl, rfl, rfl, rfl, rfl⟩

/-! ## Evaluation of the sample pipeline -/

theorem getScore_Low : getScore Tier.Low = 1 := rfl

theorem getScore_Medium : getScore Tier.Medium = 5 := rfl

theorem getScore_High : getScore Tier.High = 10 := rfl

theorem sampleFilter : filteredBreeds [sampleBreed] sampleInput = [sampleBreed] := by
  norm_num [filteredBreeds, breedPasses, sampleBreed, sampleInput]

theorem sampleScore : scoreBreed sampleInput.goal sampleBreed = sampleScored := by
  norm_num [scoreBreed, sampleInput, sampleBreed, sampleScored, normalize, getScore_Low,
    getScore_High, maintenanceMapping, jsRound, weights]

theorem sampleRun :
    recommendBreeds [sampleBreed] sampleInput (some { recommendedBreeds := [sampleRec] }) =
      Except.ok { recommendedBreeds := [sampleEntry] } := by
  rw [recommendBreeds_ok_eq _ _ _ (by rw [sampleFilter]; simp)]
  rw [topBreedsOf, sampleFilter]
  simp only [List.map_cons, List.map_nil, sampleScore]
  show Except.ok _ = _
  norm_num [sortDesc, insertDesc, mergeRec, scoresToRat, tierString, sampleScored, sampleBreed,
    sampleRec, sampleEntry]

/-- Closed-input witness for `merge_numeric_authority`. -/
theorem merge_numeric_authority_witness :
    ∃ orig rec, (topBreedsOf [sampleBreed] sampleInput)[0]? = some orig ∧
      [sampleRec][0]? = some rec ∧
      sampleEntry.overallScore = orig.overallScore ∧ sampleEntry.roi = (orig.roi : ℚ) ∧
      sampleEntry.careLevel = tierString orig.breed.careLevel ∧
      sampleEntry.scores = scoresToRat orig.scores ∧
      sampleEntry.breedName = rec.breedName ∧ sampleEntry.pros = rec.pros ∧
      sampleEntry.cons = rec.cons :=
  merge_numeric_authority [sampleBreed] sampleInput { recommendedBreeds := [sampleRec] }
    { recommendedBreeds := [sampleEntry] } sampleRun 0 sampleEntry (by simp)

/-- C6 counterexample: with one breed past the filter and a collaborator
response holding zero usable items, the pipeline returns a successful empty
result instead of raising an error. -/
theorem zero_items_counterexample :
    filteredBreeds [sampleBreed] sampleInput ≠ [] ∧
    recommendBreeds [sampleBreed] sampleInput (some { recommendedBreeds := [] }) =
      Except.ok { recommendedBreeds := [] } := by
  constructor
  · rw [sampleFilter]
    simp
  · rw [recommendBreeds_ok_eq _ _ _ (by rw [sampleFilter]; simp)]
    simp

/-- C6 (amended): only an absent (falsy) collaborator output is raised as an
error; a present response with zero usable items yields a successful empty
result even when breeds passed the filter. -/
theorem missing_output_spec (catalog : List Breed) (input : RecommendBreedsInput) :
    (filteredBreeds catalog input ≠ [] →
      recommendBreeds catalog input none =
        Except.error "Failed to get recommendations from AI model.") ∧
    recommendBreeds catalog input (some { recommendedBreeds := [] }) =
      Except.ok { recommendedBreeds := [] } := by
  constructor
  · intro hne
    unfold recommendBreeds
    rw [if_neg fun h => hne (List.length_eq_zero.1 h)]
  · by_cases hemp : filteredBreeds catalog input = []
    · unfold recommendBreeds
      rw [if_pos (by rw [hemp]; rfl)]
    · rw [recommendBreeds_ok_eq _ _ _ hemp]
      simp

/-- Closed-input witness for `missing_output_spec`. -/
theorem missing_output_spec_witness :
    recommendBreeds [sampleBreed] sampleInput none =
      Except.error "Failed to get recommendations from AI model." ∧
    recommendBreeds [sampleBreed] sampleInput (some { recommendedBreeds := [] }) =
      Except.ok { recommendedBreeds := [] } :=
  ⟨(missing_output_spec [sampleBreed] sampleInput).1 (by rw [sampleFilter]; simp),
   (missing_output_spec [sampleBreed] sampleInput).2⟩

/-- C7: when no catalog breed passes the hard constraints the pipeline returns
a successful empty result for every possible collaborator response, including
an absent one, so the collaborator is never consulted and no error is raised. -/
theorem empty_filter_ok (catalog : List Breed) (input : RecommendBreedsInput)
    (llm : Option RecommendBreedsOutput) (h : filteredBreeds catalog input = []) :
    recommendBreeds catalog input llm = Except.ok { recommendedBreeds := [] } := by
  unfold recommendBreeds
  rw [if_pos (by rw [h]; rfl)]

/-- Closed-input witness for `empty_filter_ok`. -/
theorem empty_filter_ok_witness :
    recommendBreeds [sampleBreed] poorInput none = Except.ok { recommendedBreeds := [] } :=
  empty_filter_ok [sampleBreed] poorInput none
    (by norm_num [filteredBreeds, breedPasses, sampleBreed, poorInput])

/-- C10: two farmer inputs that differ only in their (positive) land size give
the same filtered set, the same scored breeds, the same ranked top list and the
same final result: land size has no influence on any computed output. -/
theorem landSize_noninterference (catalog : List Breed) (llm : Option RecommendBreedsOutput)
    (i1 i2 : RecommendBreedsInput) (hg : i1.goal = i2.goal) (hb : i1.budget = i2.budget)
    (hc : i1.regionalClimate = i2.regionalClimate) (hl : i1.language = i2.language)
    (h1 : 0 < i1.landSize) (h2 : 0 < i2.landSize) :
    filteredBreeds catalog i1 = filteredBreeds catalog i2 ∧
    (filteredBreeds catalog i1).map (scoreBreed i1.goal) =
      (filteredBreeds catalog i2).map (scoreBreed i2.goal) ∧
    topBreedsOf catalog i1 = topBreedsOf catalog i2 ∧
    recommendBreeds catalog i1 llm = recommendBreeds catalog i2 llm := by
  obtain ⟨g1, b1, l1, c1, lang1⟩ := i1
  obtain ⟨g2, b2, l2, c2, lang2⟩ := i2
  dsimp only at hg hb hc hl
  subst hg hb hc hl
  exact ⟨rfl, rfl, rfl, rfl⟩

/-- Closed-input witness for `landSize_noninterference`. -/
theorem landSize_noninterference_witness :
    filteredBreeds [sampleBreed] sampleInput = filteredBreeds [sampleBreed] sampleInputLand2 ∧
    (filteredBreeds [sampleBreed] sampleInput).map (scoreBreed sampleInput.goal) =
      (filteredBreeds [sampleBreed] sampleInputLand2).map (scoreBreed sampleInputLand2.goal) ∧
    topBreedsOf [sampleBreed] sampleInput = topBreedsOf [sampleBreed] sampleInputLand2 ∧
    recommendBreeds [sampleBreed] sampleInput none =
      recommendBreeds [sampleBreed] sampleInputLand2 none :=
  landSize_noninterference [sampleBreed] none sampleInput sampleInputLand2 rfl rfl rfl rfl
    (by norm_num [sampleInput]) (by norm_num [sampleInputLand2])

end Pashu
